import Mathlib

/-!
Verification of the qTox `Settings` persistence core
(`src/persistence/settings.cpp`) via a shallow embedding in Lean 4.

The embedding translates the data model (friend properties, pending
requests, circles), the keyed-collection operations, the compare-and-notify
setters, the dual-tier save/load engine and the profile-id derivation into
executable Lean definitions, and proves the specified properties about
them.  Machine integers are modelled as `Nat`/`Int` with explicit
`% 2 ^ 32` where 32-bit overflow matters (the MD5-based profile id).
Qt collections are modelled as lists: `QHash` as an association list with
replace-on-insert semantics, `QVector`/`QList` as a plain list.  Change
notifications (Qt signals) are modelled as an explicit list of events
returned by each mutator.
-/

set_option autoImplicit false
set_option maxRecDepth 16384

namespace QToxSettings

/-- One pending incoming contact request (`Settings::Request`). -/
structure Request where
  address : String
  message : String
  read : Bool
deriving DecidableEq, Repr

/-- One circle entry (`Settings::circleProp`): a named, collapsible group. -/
structure circleProp where
  name : String
  expanded : Bool
deriving DecidableEq, Repr

/-- One friend entry (`Settings::friendProp`).  `autoAcceptCall` is the
bitset of call kinds to auto-accept, modelled as a `Nat`; `activity` is the
optional last-activity timestamp (`none` models a null `QDateTime`). -/
structure friendProp where
  addr : String
  «alias» : String
  note : String
  autoAcceptDir : String
  autoAcceptCall : Nat
  autoGroupInvite : Bool
  circleID : Int
  activity : Option Nat
deriving DecidableEq, Repr

/-- Modelled from the spec: the `friendProp` constructor lives in
`settings.h`, which is not part of the excerpt.  Per the data model
(spec section 3) a new entry is defaulted from the canonical address string:
free-form strings default empty, the call-accept bitset is disabled,
`circleId` is `-1` (unassigned) and the activity timestamp is unset. -/
def mkFriendProp (addr : String) : friendProp :=
  { addr := addr, «alias» := "", note := "", autoAcceptDir := "",
    autoAcceptCall := 0, autoGroupInvite := false, circleID := -1,
    activity := none }

/-- Modelled from the spec: `ToxId(addr).getPublicKey().getByteArray()`
(the `ToxId`/`ToxPk` classes are not part of the excerpt).  The public key
is a fixed-length prefix-derived key of the full address string; we model
the byte array by the leading 64 characters of the address. -/
def pubKeyOfAddr (addr : String) : String :=
  addr.take 64

/-- Modelled from the spec: `ToxPk::toString` prints a public key as its
canonical address string; with keys modelled as strings it is the key
itself. -/
def pkToString (k : String) : String := k

/- ## Pending friend requests (`Settings::addFriendRequest` and friends)

`addFriendRequest` in the source iterates `for (auto queued : friendRequests)`
with a by-value loop variable: the assignments to `queued.message` and
`queued.read` mutate a local copy, so when an entry with the same address is
already queued the stored list is left unchanged and the function merely
returns `false`.  The embedding reproduces exactly that observable
behaviour. -/

/-- Embeds `Settings::addFriendRequest`: if some queued request already carries
`friendAddress` the function returns `false` without changing the list
(the in-place update in the source is applied to a by-value loop copy);
otherwise a new unread request is appended and `true` is returned. -/
def addFriendRequest (reqs : List Request) (friendAddress message : String) :
    List Request × Bool :=
  if reqs.any (fun queued => queued.address = friendAddress) then
    (reqs, false)
  else
    (reqs ++ [{ address := friendAddress, message := message, read := false }], true)

/-- Embeds `Settings::getUnreadFriendRequests`: count of queued requests not yet
marked read. -/
def getUnreadFriendRequests (reqs : List Request) : Nat :=
  (reqs.filter (fun r => !r.read)).length

/- ## Circles (dense index-addressed list with swap-and-pop removal)

The index-addressed accessors use unchecked `operator[]` / `last()` in the
source; the embedding makes the partiality explicit with `Option`, `none`
marking the out-of-contract accesses that the C++ leaves undefined. -/

/-- Embeds `Settings::getCircleCount`. -/
def getCircleCount (l : List circleProp) : Nat := l.length

/-- Embeds `Settings::getCircleName`: unchecked `circleLst[id].name`; defined only
for `id < count`. -/
def getCircleName (l : List circleProp) (id : Nat) : Option String :=
  (l.get? id).map circleProp.name

/-- Embeds `Settings::getCircleExpanded`: unchecked `circleLst[id].expanded`;
defined only for `id < count`. -/
def getCircleExpanded (l : List circleProp) (id : Nat) : Option Bool :=
  (l.get? id).map circleProp.expanded

/-- Embeds `Settings::setCircleName`: unchecked in-place write of
`circleLst[id].name`; defined only for `id < count`. -/
def setCircleName (l : List circleProp) (id : Nat) (name : String) :
    Option (List circleProp) :=
  (l.get? id).map (fun c => l.set id { c with name := name })

/-- Embeds `Settings::setCircleExpanded`: unchecked in-place write of
`circleLst[id].expanded`; defined only for `id < count`. -/
def setCircleExpanded (l : List circleProp) (id : Nat) (expanded : Bool) :
    Option (List circleProp) :=
  (l.get? id).map (fun c => l.set id { c with expanded := expanded })

/-- Embeds `Settings::removeCircle`: `circleLst[id] = circleLst.last()` followed by
`pop_back()`, returning the new count.  `last()` on an empty list and
`operator[]` out of range are undefined in the source, so the result is
`none` unless `id < count` (which forces a non-empty list). -/
def removeCircle (l : List circleProp) (id : Nat) :
    Option (List circleProp × Nat) :=
  match l.getLast? with
  | none => none
  | some lastC =>
      if id < l.length then
        let l2 := (l.set id lastC).dropLast
        some (l2, l2.length)
      else
        none

/-- Embeds `Settings::addCircle` with a non-empty name: appends a collapsed circle
and returns the index of the new slot. -/
def addCircle (l : List circleProp) (name : String) : List circleProp × Nat :=
  (l ++ [{ name := name, expanded := false }], l.length)

/- ## Friend collection (`QHash<QByteArray, friendProp> friendLst`)

The hash is modelled as an association list of key/value pairs; public-key
byte arrays are modelled as strings.  `QHash::insert` replaces the entry of
an already-present key, `QHash::find` returns the first (unique) match and
`QHash::remove` deletes every entry of the key. -/

/-- The association list holding the friend collection. -/
abbrev FriendMap := List (String × friendProp)

/-- Embeds `QHash::find`: look up the value stored under key `k`. -/
def findFriend (l : FriendMap) (k : String) : Option friendProp :=
  (l.find? (fun p => p.1 = k)).map Prod.snd

/-- Embeds `QHash::insert`: replace the entry under `k` when present, otherwise
append a fresh entry. -/
def hashInsert (l : FriendMap) (k : String) (v : friendProp) : FriendMap :=
  if l.any (fun p => p.1 = k) then
    l.map (fun p => if p.1 = k then (k, v) else p)
  else
    l ++ [(k, v)]

/-- Embeds `QHash::remove`: delete the entry stored under `k`. -/
def removeFriend (l : FriendMap) (k : String) : FriendMap :=
  l.filter (fun p => ¬ p.1 = k)

/-- Embeds `Settings::getOrInsertFriendPropRef`: look up by public key; if absent,
insert a new entry defaulted from the canonical address string of the key;
the source returns a mutable reference into the hash, modelled here as the
(possibly extended) map. -/
def getOrInsertFriendProp (l : FriendMap) (k : String) : FriendMap :=
  if l.any (fun p => p.1 = k) then l
  else l ++ [(k, mkFriendProp (pkToString k))]

/-- In-place field update through the reference returned by
`getOrInsertFriendPropRef`. -/
def updateFriendProp (l : FriendMap) (k : String) (f : friendProp → friendProp) :
    FriendMap :=
  (getOrInsertFriendProp l k).map (fun p => if p.1 = k then (p.1, f p.2) else p)

/-- The keys stored in a friend map. -/
def friendKeys (l : FriendMap) : List String := l.map Prod.fst

/- ## Settings state and change notifications

`SettingsState` carries the in-memory fields of the `Settings` object that
the verified operations touch; `Event` enumerates the Qt signals those
operations can emit, and every mutator returns the emitted events
explicitly. -/

/-- A change-notification signal together with its payload. -/
inductive Event where
  | autoAwayTimeChanged (v : Int)
  | statusChangeNotificationEnabledChanged (v : Bool)
  | toxmeInfoChanged (v : String)
  | autoAcceptCallChanged (k : String) (v : Nat)
deriving DecidableEq, Repr

/-- The in-memory `Settings` fields used by the verified operations.
`loaded` is the gate of the dual-tier persistence state machine
(`false` models `Unloaded`). -/
structure SettingsState where
  loaded : Bool
  currentProfile : String
  autoAwayTime : Int
  spellCheckingEnabled : Bool
  statusChangeNotificationEnabled : Bool
  toxmeInfo : String
  toxmeBio : String
  toxmePriv : Bool
  toxmePass : String
  typingNotification : Bool
  enableLogging : Bool
  blackList : List String
  compactLayout : Bool
  sortingMode : Int
  proxyType : Int
  proxyAddr : String
  proxyPort : Nat
  friendLst : FriendMap
  friendRequests : List Request
  circleLst : List circleProp
deriving DecidableEq, Repr

/-- Embeds `Settings::getAutoAwayTime`. -/
def getAutoAwayTime (st : SettingsState) : Int := st.autoAwayTime

/-- Embeds `Settings::setAutoAwayTime`: negative values default to 10 minutes;
the field is updated and the signal emitted only when the (defaulted) new
value differs from the stored one. -/
def setAutoAwayTime (st : SettingsState) (newValue : Int) :
    SettingsState × List Event :=
  let v := if newValue < 0 then 10 else newValue
  if v ≠ st.autoAwayTime then
    ({ st with autoAwayTime := v }, [Event.autoAwayTimeChanged v])
  else
    (st, [])

/-- Embeds `Settings::getSpellCheckingEnabled`. -/
def getSpellCheckingEnabled (st : SettingsState) : Bool :=
  st.spellCheckingEnabled

/-- Embeds `Settings::setSpellCheckingEnabled`: compare-and-set; on an actual
change the source emits `statusChangeNotificationEnabledChanged` (with the
unrelated `statusChangeNotificationEnabled` field as payload), which the
embedding reproduces verbatim. -/
def setSpellCheckingEnabled (st : SettingsState) (newValue : Bool) :
    SettingsState × List Event :=
  if newValue ≠ st.spellCheckingEnabled then
    ({ st with spellCheckingEnabled := newValue },
     [Event.statusChangeNotificationEnabledChanged st.statusChangeNotificationEnabled])
  else
    (st, [])

/-- The at-sign separator of a toxme handle. -/
def atSign : Char := Char.ofNat 64

/-- Embeds `QString::split` over the character list of a string, keeping empty
parts (the Qt default): the number of parts is one more than the number of
separator occurrences. -/
def qsplitList (sep : Char) : List Char → List (List Char)
  | [] => [[]]
  | x :: xs =>
      match qsplitList sep xs with
      | [] => [[]]
      | y :: ys => if x = sep then [] :: y :: ys else (x :: y) :: ys

/-- Embeds `QString::split` on a one-character separator. -/
def qsplit (s : String) (sep : Char) : List String :=
  (qsplitList sep s.toList).map (fun cs => String.mk cs)

/-- Embeds `Settings::getToxmeInfo`. -/
def getToxmeInfo (st : SettingsState) : String := st.toxmeInfo

/-- Embeds `Settings::setToxmeInfo`: a new value is stored and notified only when
it differs from the stored one and splits into exactly two parts around
the at-sign (`QString::split` keeps empty parts, so the test holds exactly
when the string contains one at-sign); otherwise the value is ignored. -/
def setToxmeInfo (st : SettingsState) (info : String) :
    SettingsState × List Event :=
  if info ≠ st.toxmeInfo then
    if (qsplit info atSign).length = 2 then
      ({ st with toxmeInfo := info }, [Event.toxmeInfoChanged info])
    else
      (st, [])
  else
    (st, [])

/-- Embeds `Settings::getFriendAlias`: find by public key, default empty string on
a miss; the lookup is read-only. -/
def getFriendAlias (st : SettingsState) (k : String) : String :=
  match findFriend st.friendLst k with
  | some fp => fp.alias
  | none => ""

/-- Embeds `Settings::getFriendCircleID`: find by public key, default `-1` on a
miss; the lookup is read-only. -/
def getFriendCircleID (st : SettingsState) (k : String) : Int :=
  match findFriend st.friendLst k with
  | some fp => fp.circleID
  | none => -1

/-- Embeds `Settings::getAutoAcceptCall`: find by public key, default disabled
flag set (`AutoAcceptCallFlags()` = no bits) on a miss; the lookup is
read-only. -/
def getAutoAcceptCall (st : SettingsState) (k : String) : Nat :=
  match findFriend st.friendLst k with
  | some fp => fp.autoAcceptCall
  | none => 0

/-- Embeds `Settings::setFriendAlias`: read-or-insert, then overwrite the alias. -/
def setFriendAlias (st : SettingsState) (k : String) (a : String) :
    SettingsState :=
  { st with friendLst :=
      updateFriendProp st.friendLst k (fun fp => { fp with «alias» := a }) }

/-- Embeds `Settings::setFriendCircleID`: read-or-insert, then overwrite the
circle reference. -/
def setFriendCircleID (st : SettingsState) (k : String) (circleID : Int) :
    SettingsState :=
  { st with friendLst :=
      updateFriendProp st.friendLst k (fun fp => { fp with circleID := circleID }) }

/-- Embeds `Settings::removeFriendSettings`. -/
def removeFriendSettings (st : SettingsState) (k : String) : SettingsState :=
  { st with friendLst := removeFriend st.friendLst k }

/- ## Dual-tier persistence engine

The external serializer (`SettingsSerializer` / `QSettings`) is treated as
an opaque codec that faithfully round-trips the written key/value pairs,
so a written file is modelled directly as the structured record of the
values `savePersonal` emits; encryption with the profile passkey is the business of
the codec and does not appear in the model.  The disk is a map from
profile name to personal file plus one optional global file. -/

/-- The newline character used by the black-list join/split. -/
def nlChar : Char := Char.ofNat 10

/-- Embeds `blackList.join of newline` as written by `savePersonal`. -/
def joinNl (l : List String) : String :=
  String.intercalate (String.singleton nlChar) l

/-- Embeds `QString::split of newline` as read by `loadPersonal` (keeps empty
parts). -/
def splitNl (s : String) : List String :=
  s.split (fun c => c = nlChar)

/-- Modelled from the spec: `ICoreSettings::ProxyType` lives outside the
excerpt; the three valid enum values are modelled as `0`, `1`, `2`.
`Settings::fixInvalidProxyType` repairs any other persisted value to the
safe default `0` (no proxy). -/
def fixInvalidProxyType (proxyType : Int) : Int :=
  if proxyType = 0 ∨ proxyType = 1 ∨ proxyType = 2 then proxyType else 0

/-- One serialized friend record of the `Friends/Friend` array group.
`autoAccept` is the legacy key consulted when `autoAcceptDir` is empty
(never written by `savePersonal`, so it defaults empty).  `activity` is
`none` when the key was not written (logging disabled at save time). -/
structure FriendRec where
  addr : String
  «alias» : String
  note : String
  autoAcceptDir : String
  autoAccept : String
  autoAcceptCall : Nat
  autoGroupInvite : Bool
  circle : Int
  activity : Option (Option Nat)
deriving DecidableEq, Repr

/-- A personal-tier file: the key/value pairs `savePersonal` writes,
grouped as in the source (Privacy, Friends, Requests, GUI, Proxy,
Circles, Toxme). -/
structure PersonalFile where
  typingNotification : Bool
  enableLogging : Bool
  blackListStr : String
  friends : List FriendRec
  requests : List Request
  compactLayout : Bool
  sortingMode : Int
  proxyType : Int
  proxyAddr : String
  proxyPort : Nat
  circles : List circleProp
  toxmeInfo : String
  toxmeBio : String
  toxmePriv : Bool
  toxmePass : String
deriving DecidableEq, Repr

/-- The friend record `savePersonal` writes for one map entry: every field
verbatim, the activity timestamp only when logging is enabled. -/
def friendRecOf (logging : Bool) (fp : friendProp) : FriendRec :=
  { addr := fp.addr, «alias» := fp.alias, note := fp.note,
    autoAcceptDir := fp.autoAcceptDir, autoAccept := "",
    autoAcceptCall := fp.autoAcceptCall,
    autoGroupInvite := fp.autoGroupInvite, circle := fp.circleID,
    activity := if logging then some fp.activity else none }

/-- The serialization step of `Settings::savePersonal(name, passkey)`:
the written personal file as a function of the in-memory state. -/
def savePersonalData (st : SettingsState) : PersonalFile :=
  { typingNotification := st.typingNotification,
    enableLogging := st.enableLogging,
    blackListStr := joinNl st.blackList,
    friends := st.friendLst.map (fun p => friendRecOf st.enableLogging p.2),
    requests := st.friendRequests,
    compactLayout := st.compactLayout,
    sortingMode := st.sortingMode,
    proxyType := st.proxyType,
    proxyAddr := st.proxyAddr,
    proxyPort := st.proxyPort,
    circles := st.circleLst,
    toxmeInfo := st.toxmeInfo,
    toxmeBio := st.toxmeBio,
    toxmePriv := st.toxmePriv,
    toxmePass := st.toxmePass }

/-- The friend entry `loadPersonal` reconstructs from one serialized
record: `autoAcceptDir` falls back to the legacy `autoAccept` key when
empty; the activity timestamp is read (defaulting to a null timestamp)
only when logging is enabled per the file being loaded. -/
def loadFriendRec (logging : Bool) (r : FriendRec) : friendProp :=
  { addr := r.addr, «alias» := r.alias, note := r.note,
    autoAcceptDir := if r.autoAcceptDir = "" then r.autoAccept else r.autoAcceptDir,
    autoAcceptCall := r.autoAcceptCall,
    autoGroupInvite := r.autoGroupInvite, circleID := r.circle,
    activity := if logging then r.activity.getD none else none }

/-- The `Friends` loop of `loadPersonal`: each record is inserted into the
cleared hash under the public key derived from its address. -/
def loadFriends (logging : Bool) (recs : List FriendRec) : FriendMap :=
  recs.foldl (fun acc r => hashInsert acc (pubKeyOfAddr r.addr) (loadFriendRec logging r)) []

/-- The state-replacement step of `Settings::loadPersonal(name, passKey)`:
fully replaces the three keyed collections and the personal preference
fields from the file (the Privacy group is read first, so the `Friends`
loop sees the enable-logging flag of the file being loaded). -/
def loadPersonalData (st : SettingsState) (f : PersonalFile) : SettingsState :=
  { st with
    typingNotification := f.typingNotification,
    enableLogging := f.enableLogging,
    blackList := splitNl f.blackListStr,
    friendLst := loadFriends f.enableLogging f.friends,
    friendRequests := f.requests,
    compactLayout := f.compactLayout,
    sortingMode := f.sortingMode,
    proxyType := fixInvalidProxyType f.proxyType,
    proxyAddr := f.proxyAddr,
    proxyPort := f.proxyPort,
    circleLst := f.circles,
    toxmeInfo := f.toxmeInfo,
    toxmeBio := f.toxmeBio,
    toxmePriv := f.toxmePriv,
    toxmePass := f.toxmePass }

/-- A global-tier file, restricted to the modelled global fields; the
remaining namespaces the source writes carry fields no verified claim
touches. -/
structure GlobalFile where
  currentProfile : String
  autoAwayTime : Int
  spellCheckingEnabled : Bool
  statusChangeNotificationEnabled : Bool
deriving DecidableEq, Repr

/-- The serialization step of `Settings::saveGlobal`. -/
def serializeGlobal (st : SettingsState) : GlobalFile :=
  { currentProfile := st.currentProfile,
    autoAwayTime := st.autoAwayTime,
    spellCheckingEnabled := st.spellCheckingEnabled,
    statusChangeNotificationEnabled := st.statusChangeNotificationEnabled }

/-- The settings directory on disk: the optional global file and the
personal file stored under each profile name (`none` = no such file). -/
structure Disk where
  global : Option GlobalFile
  personal : String → Option PersonalFile

/-- The settings store: in-memory state plus the settings directory. -/
structure Store where
  st : SettingsState
  disk : Disk

/-- Embeds `Settings::saveGlobal` (worker-side body): a no-op while the store is
`Unloaded`; otherwise the destination file is cleared and rewritten from
the in-memory state. -/
def saveGlobal (S : Store) : Store :=
  if S.st.loaded then
    { S with disk := { S.disk with global := some (serializeGlobal S.st) } }
  else
    S

/-- Embeds `Settings::savePersonal(profileName, passkey)`: a no-op while the
store is `Unloaded`; otherwise the personal file of `profileName` is
created or overwritten from the in-memory state. -/
def savePersonal (S : Store) (profileName : String) : Store :=
  if S.st.loaded then
    { S with disk := { S.disk with
        personal := fun n =>
          if n = profileName then some (savePersonalData S.st)
          else S.disk.personal n } }
  else
    S

/-- The default personal document obtained when neither a profile file nor
usable personal groups exist: every `ps.value` call yields its stated
default (`proxyAddr` and `proxyPort` default to the current in-memory
values, a missing array count reads as zero elements). -/
def defaultPersonalFile (st : SettingsState) : PersonalFile :=
  { typingNotification := true, enableLogging := true, blackListStr := "",
    friends := [], requests := [], compactLayout := true, sortingMode := 0,
    proxyType := 0, proxyAddr := st.proxyAddr, proxyPort := st.proxyPort,
    circles := [], toxmeInfo := "", toxmeBio := "", toxmePriv := false,
    toxmePass := "" }

/-- Embeds `Settings::loadPersonal(profileName, passKey)`: reads the personal
file of the profile when it exists (the fallback to the shared global
file is modelled by the all-defaults document). -/
def loadPersonal (S : Store) (profileName : String) : Store :=
  let f := (S.disk.personal profileName).getD (defaultPersonalFile S.st)
  { S with st := loadPersonalData S.st f }

/-- Embeds `Settings::resetToDefault`: marks the store `Unloaded` (suppressing
further saves) and deletes the personal file of the current profile; the
in-memory state is kept as-is. -/
def resetToDefault (S : Store) : Store :=
  { st := { S.st with loaded := false },
    disk := { S.disk with
      personal := fun n =>
        if n = S.st.currentProfile then none else S.disk.personal n } }

/-- A preference mutation lifted to the store: setters touch only the
in-memory state, never the disk. -/
def setSpellCheckingEnabledS (S : Store) (newValue : Bool) :
    Store × List Event :=
  let r := setSpellCheckingEnabled S.st newValue
  ({ S with st := r.1 }, r.2)

/- ## Profile id derivation (`Settings::makeProfileId`)

`QCryptographicHash::hash(name.toUtf8(), Md5)` is the reference MD5
digest; the source then reinterprets the 16 digest bytes as four 32-bit
words (little-endian, as on the supported targets) and folds them with
exclusive-or.  MD5 is implemented here over `Nat` bytes and words with
explicit reduction modulo `2 ^ 32`. -/

/-- Embeds `2 ^ 32`, the modulus of 32-bit word arithmetic. -/
def m32 : Nat := 4294967296

/-- Left rotation of a 32-bit word. -/
def rotl32 (x n : Nat) : Nat :=
  ((x <<< n) % m32) ||| (x >>> (32 - n))

/-- The 64 MD5 round constants `K[i]`. -/
def md5K : List Nat :=
  [0xd76aa478, 0xe8c7b756, 0x242070db, 0xc1bdceee,
   0xf57c0faf, 0x4787c62a, 0xa8304613, 0xfd469501,
   0x698098d8, 0x8b44f7af, 0xffff5bb1, 0x895cd7be,
   0x6b901122, 0xfd987193, 0xa679438e, 0x49b40821,
   0xf61e2562, 0xc040b340, 0x265e5a51, 0xe9b6c7aa,
   0xd62f105d, 0x02441453, 0xd8a1e681, 0xe7d3fbc8,
   0x21e1cde6, 0xc33707d6, 0xf4d50d87, 0x455a14ed,
   0xa9e3e905, 0xfcefa3f8, 0x676f02d9, 0x8d2a4c8a,
   0xfffa3942, 0x8771f681, 0x6d9d6122, 0xfde5380c,
   0xa4beea44, 0x4bdecfa9, 0xf6bb4b60, 0xbebfbc70,
   0x289b7ec6, 0xeaa127fa, 0xd4ef3085, 0x04881d05,
   0xd9d4d039, 0xe6db99e5, 0x1fa27cf8, 0xc4ac5665,
   0xf4292244, 0x432aff97, 0xab9423a7, 0xfc93a039,
   0x655b59c3, 0x8f0ccc92, 0xffeff47d, 0x85845dd1,
   0x6fa87e4f, 0xfe2ce6e0, 0xa3014314, 0x4e0811a1,
   0xf7537e82, 0xbd3af235, 0x2ad7d2bb, 0xeb86d391]

/-- The 64 MD5 per-round shift amounts `s[i]`. -/
def md5S : List Nat :=
  [7, 12, 17, 22, 7, 12, 17, 22, 7, 12, 17, 22, 7, 12, 17, 22,
   5, 9, 14, 20, 5, 9, 14, 20, 5, 9, 14, 20, 5, 9, 14, 20,
   4, 11, 16, 23, 4, 11, 16, 23, 4, 11, 16, 23, 4, 11, 16, 23,
   6, 10, 15, 21, 6, 10, 15, 21, 6, 10, 15, 21, 6, 10, 15, 21]

/-- The running MD5 register file. -/
structure MD5State where
  a : Nat
  b : Nat
  c : Nat
  d : Nat
deriving DecidableEq, Repr

/-- The MD5 initialization vector. -/
def md5Init : MD5State :=
  { a := 0x67452301, b := 0xefcdab89, c := 0x98badcfe, d := 0x10325476 }

/-- One MD5 round: mixing function, message-word schedule, add, rotate. -/
def md5Round (M : List Nat) (s : MD5State) (i : Nat) : MD5State :=
  let f :=
    if i < 16 then (s.b &&& s.c) ||| ((s.b ^^^ 0xffffffff) &&& s.d)
    else if i < 32 then (s.d &&& s.b) ||| ((s.d ^^^ 0xffffffff) &&& s.c)
    else if i < 48 then (s.b ^^^ s.c) ^^^ s.d
    else s.c ^^^ (s.b ||| (s.d ^^^ 0xffffffff))
  let g :=
    if i < 16 then i
    else if i < 32 then (5 * i + 1) % 16
    else if i < 48 then (3 * i + 5) % 16
    else (7 * i) % 16
  let f2 := (f + s.a + md5K.getD i 0 + M.getD g 0) % m32
  { a := s.d, b := (s.b + rotl32 f2 (md5S.getD i 0)) % m32, c := s.b, d := s.c }

/-- Recombine a byte list into little-endian 32-bit words, four bytes per
word. -/
def leWords : List Nat → List Nat
  | b0 :: b1 :: b2 :: b3 :: rest =>
      (b0 + 256 * (b1 + 256 * (b2 + 256 * b3))) :: leWords rest
  | _ => []

/-- Process one 64-byte chunk: 64 rounds, then add the result into the
running registers modulo `2 ^ 32`. -/
def md5Chunk (s : MD5State) (chunk : List Nat) : MD5State :=
  let M := leWords chunk
  let r := (List.range 64).foldl (md5Round M) s
  { a := (s.a + r.a) % m32, b := (s.b + r.b) % m32,
    c := (s.c + r.c) % m32, d := (s.d + r.d) % m32 }

/-- Split a byte list into 64-byte chunks (fuel-driven; called with the
length of the list, which bounds the number of chunks). -/
def chunks64 : Nat → List Nat → List (List Nat)
  | 0, _ => []
  | Nat.succ n, bs =>
      if bs.isEmpty then [] else bs.take 64 :: chunks64 n (bs.drop 64)

/-- MD5 padding: a `0x80` byte, zeros up to 56 modulo 64, then the
original bit length as a little-endian 64-bit quantity. -/
def md5Pad (msg : List Nat) : List Nat :=
  let len := msg.length
  let z := (119 - len % 64) % 64
  let bitLen := (8 * len) % (2 ^ 64)
  msg ++ [128] ++ List.replicate z 0 ++
    ((List.range 8).map (fun i => (bitLen >>> (8 * i)) % 256))

/-- Serialize one register as four little-endian bytes. -/
def leBytes4 (n : Nat) : List Nat :=
  [n % 256, (n >>> 8) % 256, (n >>> 16) % 256, (n >>> 24) % 256]

/-- The 16-byte MD5 digest of a byte string. -/
def md5Bytes (msg : List Nat) : List Nat :=
  let padded := md5Pad msg
  let s := (chunks64 padded.length padded).foldl md5Chunk md5Init
  leBytes4 s.a ++ leBytes4 s.b ++ leBytes4 s.c ++ leBytes4 s.d

/-- UTF-8 encoding of one character. -/
def utf8Char (c : Char) : List Nat :=
  let n := c.toNat
  if n < 0x80 then [n]
  else if n < 0x800 then
    [0xC0 ||| (n >>> 6), 0x80 ||| (n &&& 0x3F)]
  else if n < 0x10000 then
    [0xE0 ||| (n >>> 12), 0x80 ||| ((n >>> 6) &&& 0x3F), 0x80 ||| (n &&& 0x3F)]
  else
    [0xF0 ||| (n >>> 18), 0x80 ||| ((n >>> 12) &&& 0x3F),
     0x80 ||| ((n >>> 6) &&& 0x3F), 0x80 ||| (n &&& 0x3F)]

/-- Embeds `QString::toUtf8`: the UTF-8 byte encoding of a string. -/
def utf8Encode (s : String) : List Nat :=
  (s.toList.map utf8Char).flatten

/-- The four 32-bit words obtained by reinterpreting the MD5 digest of the
UTF-8 profile name, as `makeProfileId` does through its
`reinterpret_cast`. -/
def md5Dwords (profile : String) : List Nat :=
  leWords (md5Bytes (utf8Encode profile))

/-- Embeds `Settings::makeProfileId`: `dwords[0] ^ dwords[1] ^ dwords[2] ^
dwords[3]` over the MD5 digest of the UTF-8 profile name. -/
def makeProfileId (profile : String) : Nat :=
  let dwords := md5Dwords profile
  ((dwords.getD 0 0 ^^^ dwords.getD 1 0) ^^^ dwords.getD 2 0) ^^^ dwords.getD 3 0

/-- The exclusive-or fold of a word list, the formula the spec states for
the profile id. -/
def xorFold (l : List Nat) : Nat :=
  l.foldl (fun x y => x ^^^ y) 0

/- ## Concrete states used by witnesses and counterexamples -/

/-- A small loaded settings state. -/
def sampleState : SettingsState :=
  { loaded := true, currentProfile := "p", autoAwayTime := 5,
    spellCheckingEnabled := true, statusChangeNotificationEnabled := false,
    toxmeInfo := "user@server", toxmeBio := "", toxmePriv := false,
    toxmePass := "", typingNotification := true, enableLogging := true,
    blackList := [], compactLayout := true, sortingMode := 0,
    proxyType := 0, proxyAddr := "", proxyPort := 0, friendLst := [],
    friendRequests := [], circleLst := [] }

/-- An empty settings directory. -/
def emptyDisk : Disk :=
  { global := none, personal := fun _ => none }

/-- A store that has not been loaded yet. -/
def unloadedStore : Store :=
  { st := { sampleState with loaded := false }, disk := emptyDisk }

/-- A loaded store with one friend entry carrying an activity timestamp,
with message logging enabled. -/
def loadedStore : Store :=
  { st :=
      { sampleState with
        friendLst := [("K", { mkFriendProp "K" with activity := some 1 })] },
    disk := emptyDisk }

/-- A loaded store with one friend entry carrying an activity timestamp,
with message logging disabled. -/
def loggingOffStore : Store :=
  { st :=
      { sampleState with
        enableLogging := false,
        friendLst := [("K", { mkFriendProp "K" with activity := some 1 })] },
    disk := emptyDisk }

/- ## Helper lemmas on the friend map -/

theorem any_key_eq_true_iff (l : FriendMap) (k : String) :
    l.any (fun p => p.1 = k) = true ↔ k ∈ friendKeys l := by
  simp only [List.any_eq_true, decide_eq_true_eq, friendKeys, List.mem_map]

theorem findFriend_eq_none_iff (l : FriendMap) (k : String) :
    findFriend l k = none ↔ k ∉ friendKeys l := by
  induction l with
  | nil => simp [findFriend, friendKeys]
  | cons p rest ih =>
      by_cases hp : p.1 = k
      · subst hp
        have hhead : findFriend (p :: rest) p.1 = some p.2 := by
          unfold findFriend
          rw [List.find?_cons_of_pos _ (by simp)]
          rfl
        rw [hhead]
        simp [friendKeys]
      · have hstep : findFriend (p :: rest) k = findFriend rest k := by
          unfold findFriend
          rw [List.find?_cons_of_neg _ (by simpa using hp)]
        have hk : k ≠ p.1 := fun hh => hp hh.symm
        rw [hstep, ih]
        simp [friendKeys, hk]

theorem friendKeys_hashInsert_mem (l : FriendMap) (k : String) (v : friendProp)
    (h : k ∈ friendKeys l) :
    friendKeys (hashInsert l k v) = friendKeys l := by
  have ha : l.any (fun p => p.1 = k) = true := (any_key_eq_true_iff l k).mpr h
  simp only [hashInsert, ha, if_true, friendKeys, List.map_map]
  refine List.map_congr_left ?_
  intro p _
  by_cases hp : p.1 = k
  · simp [hp]
  · simp [hp]

theorem hashInsert_not_mem (l : FriendMap) (k : String) (v : friendProp)
    (h : k ∉ friendKeys l) :
    hashInsert l k v = l ++ [(k, v)] := by
  have ha : l.any (fun p => p.1 = k) = false := by
    rw [← Bool.not_eq_true, any_key_eq_true_iff]
    exact h
  simp [hashInsert, ha]

/- ## C1: request de-duplication -/

/-- C1 (code bug): `addFriendRequest` on an address already pending is
meant to update the queued message in place and reset its read flag, but
the source iterates the queue with a by-value loop variable, so the
assignments land on a local copy: the stored entry keeps its old message
and read flag and only the `false` flag is returned.  For a fresh address
the insert path behaves as specified.  This theorem evaluates both paths
at the failing input. -/
theorem addFriendRequest_stale_on_duplicate :
    addFriendRequest [{ address := "A", message := "hi", read := true }] "A" "bye"
      = ([{ address := "A", message := "hi", read := true }], false) ∧
    addFriendRequest [] "A" "hi"
      = ([{ address := "A", message := "hi", read := false }], true) := by
  exact ⟨by decide, by decide⟩

/- ## C3: circle compaction -/

/-- C3: for every circle list and every index in range, `removeCircle`
overwrites the removed slot with the last slot, shrinks the list by one
and returns the new count. -/
theorem removeCircle_swap_pop (l : List circleProp) (id : Nat) (c : circleProp)
    (hlast : l.getLast? = some c) (hid : id < l.length) :
    removeCircle l id = some ((l.set id c).dropLast, l.length - 1) ∧
    ((l.set id c).dropLast).length = l.length - 1 := by
  have hlen : ((l.set id c).dropLast).length = l.length - 1 := by
    simp [List.length_dropLast, List.length_set]
  refine ⟨?_, hlen⟩
  simp [removeCircle, hlast, hid, hlen]

/-- C3 witness: removing index 0 from the 3-circle list `[X, Y, Z]` yields
the 2-circle list `[Z, Y]` and the new count 2. -/
theorem removeCircle_swap_pop_witness :
    removeCircle
        [{ name := "X", expanded := true }, { name := "Y", expanded := true },
         { name := "Z", expanded := true }] 0
      = some ([{ name := "Z", expanded := true }, { name := "Y", expanded := true }], 2) := by
  have h := (removeCircle_swap_pop
    [{ name := "X", expanded := true }, { name := "Y", expanded := true },
     { name := "Z", expanded := true }] 0 { name := "Z", expanded := true }
    (by decide) (by decide)).1
  simpa using h

/- ## C10: circle accessors are unguarded -/

/-- C10: the index-addressed circle accessors are defined exactly on
indices below the circle count — out of range there is no default-on-miss
result — and `removeCircle` additionally requires a non-empty list, since
it reads the last element unconditionally. -/
theorem circle_accessors_unguarded (l : List circleProp) (id : Nat)
    (name : String) (b : Bool) :
    ((getCircleName l id).isSome ↔ id < l.length) ∧
    ((getCircleExpanded l id).isSome ↔ id < l.length) ∧
    ((setCircleName l id name).isSome ↔ id < l.length) ∧
    ((setCircleExpanded l id b).isSome ↔ id < l.length) ∧
    ((removeCircle l id).isSome ↔ id < l.length) ∧
    ((removeCircle l id).isSome → l ≠ []) := by
  have hget : ∀ m : Nat, (l.get? m).isSome ↔ m < l.length := by
    intro m
    induction l generalizing m with
    | nil => simp [List.get?]
    | cons x xs ih =>
        cases m with
        | zero => simp [List.get?]
        | succ m => simpa [List.get?, Nat.succ_lt_succ_iff] using ih m
  have hmap : ∀ {α : Type} (f : circleProp → α),
      ((l.get? id).map f).isSome ↔ id < l.length := by
    intro α f
    rw [← hget id]
    cases l.get? id <;> simp
  refine ⟨hmap _, hmap _, hmap _, hmap _, ?_, ?_⟩
  · rcases h : l.getLast? with _ | c
    · have hl : l = [] := List.getLast?_eq_none_iff.mp h
      subst hl
      simp [removeCircle]
    · by_cases hid : id < l.length <;> simp [removeCircle, h, hid]
  · intro hs hnil
    subst hnil
    simp [removeCircle] at hs

/-- C10 witness: on a one-element list index 0 is in contract and index 1
is not. -/
theorem circle_accessors_unguarded_witness :
    (getCircleName [{ name := "X", expanded := true }] 0).isSome ∧
    ¬ (getCircleName [{ name := "X", expanded := true }] 1).isSome := by
  have h := circle_accessors_unguarded [{ name := "X", expanded := true }] 0 "n" true
  have h2 := circle_accessors_unguarded [{ name := "X", expanded := true }] 1 "n" true
  refine ⟨h.1.mpr (by decide), fun hs => ?_⟩
  have := h2.1.mp hs
  simp at this

/- ## C5: toxme identity setter validation -/

/-- C5: a candidate toxme string that does not split into exactly two
at-sign-delimited parts is silently rejected — stored value retained, no
notification — while a well-formed string differing from the stored value
is stored and notified exactly once. -/
theorem setToxmeInfo_validation (st : SettingsState) (info : String) :
    (¬ (qsplit info atSign).length = 2 →
      setToxmeInfo st info = (st, [])) ∧
    ((qsplit info atSign).length = 2 → info ≠ st.toxmeInfo →
      setToxmeInfo st info
        = ({ st with toxmeInfo := info }, [Event.toxmeInfoChanged info])) := by
  constructor
  · intro hbad
    by_cases heq : info = st.toxmeInfo
    · simp [setToxmeInfo, heq]
    · simp [setToxmeInfo, heq, hbad]
  · intro hok hne
    simp [setToxmeInfo, hne, hok]

/-- C5 witness: at a concrete state, a string with no at-sign is ignored
and a well-formed differing string is stored with one notification. -/
theorem setToxmeInfo_validation_witness :
    setToxmeInfo sampleState "nodelimiter" = (sampleState, []) ∧
    setToxmeInfo sampleState "a@b"
      = ({ sampleState with toxmeInfo := "a@b" }, [Event.toxmeInfoChanged "a@b"]) :=
  ⟨(setToxmeInfo_validation sampleState "nodelimiter").1 (by decide),
   (setToxmeInfo_validation sampleState "a@b").2 (by decide) (by decide)⟩

/- ## C6: default-on-miss friend getters -/

/-- C6: for a friend key never referenced, the per-friend getters return
the documented defaults — empty alias, circle id `-1`, disabled
auto-accept-call flag set — and, being plain lookups, insert nothing. -/
theorem friend_getters_default_on_miss (st : SettingsState) (k : String)
    (h : findFriend st.friendLst k = none) :
    getFriendAlias st k = "" ∧ getFriendCircleID st k = -1 ∧
    getAutoAcceptCall st k = 0 := by
  refine ⟨?_, ?_, ?_⟩ <;> simp [getFriendAlias, getFriendCircleID, getAutoAcceptCall, h]

/-- C6 witness: at a state with an empty friend collection every getter
returns its default. -/
theorem friend_getters_default_on_miss_witness :
    getFriendAlias sampleState "K" = "" ∧
    getFriendCircleID sampleState "K" = -1 ∧
    getAutoAcceptCall sampleState "K" = 0 :=
  friend_getters_default_on_miss sampleState "K" (by decide)

/- ## C2: compare-and-notify setters -/

/-- C2 counterexample: the set/get round trip is not exact for every
value — `setAutoAwayTime` defaults negative minute counts to 10, so
setting `-1` reads back as 10, not `-1`. -/
theorem setter_roundtrip_counterexample :
    getAutoAwayTime (setAutoAwayTime sampleState (-1)).1 ≠ -1 ∧
    getAutoAwayTime (setAutoAwayTime sampleState (-1)).1 = 10 := by
  exact ⟨by decide, by decide⟩

/-- C2 amended: for the cited setters the round trip is exact on
non-negative auto-away minutes (negative input is defaulted to 10) and
exact for the spell-checking flag; an immediately repeated identical set
emits no notification, and a notification is emitted only when the stored
value actually changes. -/
theorem setter_compare_and_notify (st : SettingsState) (v : Int) (b : Bool) :
    (0 ≤ v → getAutoAwayTime (setAutoAwayTime st v).1 = v) ∧
    getSpellCheckingEnabled (setSpellCheckingEnabled st b).1 = b ∧
    (setAutoAwayTime (setAutoAwayTime st v).1 v).2 = [] ∧
    (setSpellCheckingEnabled (setSpellCheckingEnabled st b).1 b).2 = [] ∧
    ((setAutoAwayTime st v).2 ≠ [] →
      getAutoAwayTime (setAutoAwayTime st v).1 ≠ getAutoAwayTime st) ∧
    ((setSpellCheckingEnabled st b).2 ≠ [] →
      getSpellCheckingEnabled (setSpellCheckingEnabled st b).1
        ≠ getSpellCheckingEnabled st) := by
  refine ⟨?_, ?_, ?_, ?_, ?_, ?_⟩
  · intro hv
    have hneg : ¬ v < 0 := not_lt.mpr hv
    by_cases h1 : v ≠ st.autoAwayTime
    · simp [setAutoAwayTime, getAutoAwayTime, hneg, h1]
    · rw [not_not] at h1
      subst h1
      simp [setAutoAwayTime, getAutoAwayTime, hneg]
  · by_cases h1 : b ≠ st.spellCheckingEnabled
    · simp [setSpellCheckingEnabled, getSpellCheckingEnabled, h1]
    · rw [not_not] at h1
      subst h1
      simp [setSpellCheckingEnabled, getSpellCheckingEnabled]
  · by_cases h0 : v < 0
    · by_cases h1 : (10 : Int) ≠ st.autoAwayTime <;>
        simp [setAutoAwayTime, h0, h1]
    · by_cases h1 : v ≠ st.autoAwayTime <;>
        simp [setAutoAwayTime, h0, h1]
  · by_cases h1 : b ≠ st.spellCheckingEnabled <;>
      simp [setSpellCheckingEnabled, h1]
  · by_cases h0 : v < 0
    · by_cases h1 : (10 : Int) ≠ st.autoAwayTime <;>
        simp [setAutoAwayTime, getAutoAwayTime, h0, h1]
    · by_cases h1 : v ≠ st.autoAwayTime <;>
        simp [setAutoAwayTime, getAutoAwayTime, h0, h1]
  · by_cases h1 : b ≠ st.spellCheckingEnabled <;>
      simp [setSpellCheckingEnabled, getSpellCheckingEnabled, h1]

/-- C2 witness: at a concrete state, setting 7 minutes reads back 7,
setting the spell flag reads it back, and repeating the identical set
emits nothing. -/
theorem setter_compare_and_notify_witness :
    getAutoAwayTime (setAutoAwayTime sampleState 7).1 = 7 ∧
    getSpellCheckingEnabled (setSpellCheckingEnabled sampleState false).1 = false ∧
    (setAutoAwayTime (setAutoAwayTime sampleState 7).1 7).2 = [] :=
  ⟨(setter_compare_and_notify sampleState 7 false).1 (by decide),
   (setter_compare_and_notify sampleState 7 false).2.1,
   (setter_compare_and_notify sampleState 7 false).2.2.1⟩

/- ## C4: the Unloaded gate -/

/-- C4 counterexample: mutation calls are not gated on the loaded flag —
at an unloaded store, a preference setter still changes the in-memory
state (only the save family checks the gate). -/
theorem unloaded_mutation_changes_state :
    (setSpellCheckingEnabledS unloadedStore false).1.st ≠ unloadedStore.st ∧
    unloadedStore.st.loaded = false := by
  exact ⟨by decide, by decide⟩

/-- C4 amended: while the store is `Unloaded` — before the first load or
after `resetToDefault` — `saveGlobal` and `savePersonal` are no-ops
leaving disk and memory untouched and raising no error; mutation calls
are not gated and still update the in-memory state. -/
theorem saves_noop_when_unloaded (S : Store) (name : String)
    (h : S.st.loaded = false) :
    saveGlobal S = S ∧ savePersonal S name = S ∧
    saveGlobal (resetToDefault S) = resetToDefault S ∧
    savePersonal (resetToDefault S) name = resetToDefault S := by
  refine ⟨?_, ?_, ?_, ?_⟩ <;>
    simp [saveGlobal, savePersonal, resetToDefault, h]

/-- C4 witness: both save operations leave a concrete unloaded store
unchanged. -/
theorem saves_noop_when_unloaded_witness :
    saveGlobal unloadedStore = unloadedStore ∧
    savePersonal unloadedStore "p" = unloadedStore := by
  have h := saves_noop_when_unloaded unloadedStore "p" (by decide)
  exact ⟨h.1, h.2.1⟩

/- ## C8: uniqueness of friend keys -/

theorem friendKeys_append_single (l : FriendMap) (p : String × friendProp) :
    friendKeys (l ++ [p]) = friendKeys l ++ [p.1] := by
  simp [friendKeys]

theorem getOrInsert_of_mem (l : FriendMap) (k : String)
    (h : k ∈ friendKeys l) : getOrInsertFriendProp l k = l := by
  simp [getOrInsertFriendProp, (any_key_eq_true_iff l k).mpr h]

theorem getOrInsert_of_not_mem (l : FriendMap) (k : String)
    (h : k ∉ friendKeys l) :
    getOrInsertFriendProp l k = l ++ [(k, mkFriendProp (pkToString k))] := by
  have ha : l.any (fun p => p.1 = k) = false := by
    rw [← Bool.not_eq_true, any_key_eq_true_iff]
    exact h
  simp [getOrInsertFriendProp, ha]

theorem friendKeys_updateFriendProp (l : FriendMap) (k : String)
    (f : friendProp → friendProp) :
    friendKeys (updateFriendProp l k f)
      = friendKeys (getOrInsertFriendProp l k) := by
  unfold updateFriendProp
  simp only [friendKeys, List.map_map]
  refine List.map_congr_left ?_
  intro p _
  by_cases hp : p.1 = k
  · simp [hp]
  · simp [hp]

theorem nodup_keys_append_new (l : FriendMap) (k : String) (v : friendProp)
    (h : (friendKeys l).Nodup) (hk : k ∉ friendKeys l) :
    (friendKeys (l ++ [(k, v)])).Nodup := by
  rw [friendKeys_append_single]
  refine List.Nodup.append h (List.nodup_singleton k) ?_
  intro x hx hmem
  rw [List.mem_singleton] at hmem
  subst hmem
  exact hk hx

/-- C8: every friend-collection operation preserves uniqueness of
public-key bytes — read-or-insert, hash insert (the load path), a
representative per-friend setter update and removal all keep the key list
duplicate-free — and read-or-insert either returns the map unchanged when
the key is present or appends exactly one entry defaulted from the
canonical address string of the key. -/
theorem friend_unique_keys (l : FriendMap) (k : String) (v : friendProp)
    (a : String) (h : (friendKeys l).Nodup) :
    (friendKeys (getOrInsertFriendProp l k)).Nodup ∧
    (friendKeys (hashInsert l k v)).Nodup ∧
    (friendKeys (updateFriendProp l k (fun fp => { fp with «alias» := a }))).Nodup ∧
    (friendKeys (removeFriend l k)).Nodup ∧
    (findFriend l k = none →
      getOrInsertFriendProp l k = l ++ [(k, mkFriendProp (pkToString k))]) ∧
    (findFriend l k ≠ none → getOrInsertFriendProp l k = l) := by
  have hgetOr : (friendKeys (getOrInsertFriendProp l k)).Nodup := by
    by_cases hk : k ∈ friendKeys l
    · rw [getOrInsert_of_mem l k hk]
      exact h
    · rw [getOrInsert_of_not_mem l k hk]
      exact nodup_keys_append_new l k _ h hk
  refine ⟨hgetOr, ?_, ?_, ?_, ?_, ?_⟩
  · by_cases hk : k ∈ friendKeys l
    · rw [friendKeys_hashInsert_mem l k v hk]
      exact h
    · rw [hashInsert_not_mem l k v hk]
      exact nodup_keys_append_new l k v h hk
  · rw [friendKeys_updateFriendProp]
    exact hgetOr
  · have hsub : List.Sublist (friendKeys (removeFriend l k)) (friendKeys l) :=
      List.Sublist.map Prod.fst (List.filter_sublist l)
    exact List.Nodup.sublist hsub h
  · intro hnone
    exact getOrInsert_of_not_mem l k ((findFriend_eq_none_iff l k).mp hnone)
  · intro hsome
    refine getOrInsert_of_mem l k ?_
    by_contra hk
    exact hsome ((findFriend_eq_none_iff l k).mpr hk)

/-- C8 witness: on a one-entry map with a fresh key, read-or-insert
appends exactly one defaulted entry and the key list stays
duplicate-free. -/
theorem friend_unique_keys_witness :
    (friendKeys (getOrInsertFriendProp [("K", mkFriendProp "K")] "L")).Nodup ∧
    getOrInsertFriendProp [("K", mkFriendProp "K")] "L"
      = [("K", mkFriendProp "K")] ++ [("L", mkFriendProp (pkToString "L"))] := by
  have h := friend_unique_keys [("K", mkFriendProp "K")] "L" (mkFriendProp "L")
    "a" (by decide)
  exact ⟨h.1, h.2.2.2.2.1 (by decide)⟩

/- ## C7: personal-tier save/load round trip -/

theorem loadFriendRec_friendRecOf (logging : Bool) (fp : friendProp) :
    loadFriendRec logging (friendRecOf logging fp)
      = { fp with activity := if logging then fp.activity else none } := by
  cases logging <;> by_cases h : fp.autoAcceptDir = "" <;>
    simp [loadFriendRec, friendRecOf, h]

theorem loadFriends_fold (logging : Bool) (l : FriendMap) :
    ∀ acc : FriendMap,
      (∀ p ∈ l, p.1 = pubKeyOfAddr p.2.addr) →
      (friendKeys (acc ++ l)).Nodup →
      (l.map (fun p => friendRecOf logging p.2)).foldl
          (fun a r => hashInsert a (pubKeyOfAddr r.addr) (loadFriendRec logging r)) acc
        = acc ++ l.map (fun p => (p.1, loadFriendRec logging (friendRecOf logging p.2))) := by
  induction l with
  | nil =>
      intro acc _ _
      simp
  | cons p rest ih =>
      intro acc hkeys hnodup
      have hkeyp : p.1 = pubKeyOfAddr p.2.addr := hkeys p (List.mem_cons_self p rest)
      have hmem : p.1 ∉ friendKeys acc := by
        have hsplit : friendKeys (acc ++ p :: rest)
            = friendKeys acc ++ p.1 :: friendKeys rest := by
          simp [friendKeys]
        rw [hsplit] at hnodup
        intro hin
        exact (List.nodup_append.mp hnodup).2.2 hin (List.mem_cons_self _ _)
      have hstep : hashInsert acc (pubKeyOfAddr (friendRecOf logging p.2).addr)
            (loadFriendRec logging (friendRecOf logging p.2))
          = acc ++ [(p.1, loadFriendRec logging (friendRecOf logging p.2))] := by
        have haddr : (friendRecOf logging p.2).addr = p.2.addr := rfl
        rw [haddr, ← hkeyp]
        exact hashInsert_not_mem acc p.1 _ hmem
      have hnd2 : (friendKeys
          ((acc ++ [(p.1, loadFriendRec logging (friendRecOf logging p.2))]) ++ rest)).Nodup := by
        have heq : friendKeys
            ((acc ++ [(p.1, loadFriendRec logging (friendRecOf logging p.2))]) ++ rest)
            = friendKeys (acc ++ p :: rest) := by
          simp [friendKeys]
        rw [heq]
        exact hnodup
      simp only [List.map_cons, List.foldl_cons, hstep]
      rw [ih (acc ++ [(p.1, loadFriendRec logging (friendRecOf logging p.2))])
            (fun q hq => hkeys q (List.mem_cons_of_mem p hq)) hnd2]
      simp

/-- C7 counterexample: with logging disabled the activity timestamp is not
written, so save followed by load does not reproduce the friend entries
field-for-field — a stored timestamp comes back null. -/
theorem personal_roundtrip_activity_lost :
    (loadPersonal (savePersonal loggingOffStore "p") "p").st.friendLst
      ≠ loggingOffStore.st.friendLst := by
  decide

/-- C7 amended: for a loaded store whose friend keys are derived from the
entry addresses and duplicate-free, `savePersonal` followed by
`loadPersonal` under the same profile name reproduces the request and
circle collections exactly and the friend entries field-for-field except
`activity`, which survives exactly when logging is enabled and reads back
null otherwise. -/
theorem personal_roundtrip (S : Store) (name : String)
    (hload : S.st.loaded = true)
    (hkeys : ∀ p ∈ S.st.friendLst, p.1 = pubKeyOfAddr p.2.addr)
    (hnodup : (friendKeys S.st.friendLst).Nodup) :
    (loadPersonal (savePersonal S name) name).st.friendRequests
      = S.st.friendRequests ∧
    (loadPersonal (savePersonal S name) name).st.circleLst = S.st.circleLst ∧
    (loadPersonal (savePersonal S name) name).st.friendLst
      = S.st.friendLst.map (fun p =>
          (p.1, { p.2 with
            activity := if S.st.enableLogging then p.2.activity else none })) ∧
    (S.st.enableLogging = true →
      (loadPersonal (savePersonal S name) name).st.friendLst
        = S.st.friendLst) := by
  have hfile : (savePersonal S name).disk.personal name
      = some (savePersonalData S.st) := by
    simp [savePersonal, hload]
  have hstEq : (savePersonal S name).st = S.st := by
    simp [savePersonal, hload]
  have hS2 : (loadPersonal (savePersonal S name) name).st
      = loadPersonalData S.st (savePersonalData S.st) := by
    rw [loadPersonal, hfile, hstEq]
    rfl
  have hfl : (loadPersonalData S.st (savePersonalData S.st)).friendLst
      = S.st.friendLst.map (fun p =>
          (p.1, { p.2 with
            activity := if S.st.enableLogging then p.2.activity else none })) := by
    show loadFriends (savePersonalData S.st).enableLogging
        (savePersonalData S.st).friends = _
    have hlogging : (savePersonalData S.st).enableLogging = S.st.enableLogging := rfl
    have hfr : (savePersonalData S.st).friends
        = S.st.friendLst.map (fun p => friendRecOf S.st.enableLogging p.2) := rfl
    rw [hlogging, hfr, loadFriends,
        loadFriends_fold S.st.enableLogging S.st.friendLst [] hkeys
          (by simpa using hnodup)]
    simp only [List.nil_append]
    refine List.map_congr_left ?_
    intro p _
    rw [loadFriendRec_friendRecOf]
  refine ⟨?_, ?_, ?_, ?_⟩
  · rw [hS2]
    rfl
  · rw [hS2]
    rfl
  · rw [hS2, hfl]
  · intro hlog
    rw [hS2, hfl]
    have hfun : (fun p : String × friendProp =>
        (p.1, { p.2 with
          activity := if S.st.enableLogging then p.2.activity else none }))
        = fun p => p := by
      funext p
      simp only [hlog]
      rfl
    rw [hfun]
    exact List.map_id _

/-- C7 witness: at a concrete loaded store with logging enabled, the three
collections come back equal. -/
theorem personal_roundtrip_witness :
    (loadPersonal (savePersonal loadedStore "p") "p").st.friendRequests
      = loadedStore.st.friendRequests ∧
    (loadPersonal (savePersonal loadedStore "p") "p").st.circleLst
      = loadedStore.st.circleLst ∧
    (loadPersonal (savePersonal loadedStore "p") "p").st.friendLst
      = loadedStore.st.friendLst := by
  have h := personal_roundtrip loadedStore "p" (by decide) (by decide) (by decide)
  exact ⟨h.1, h.2.1, h.2.2.2 (by decide)⟩

/- ## C9: profile id derivation -/

set_option maxHeartbeats 64000000 in
theorem makeProfileId_alice_val : makeProfileId "alice" = 2005837138 := by
  decide

set_option maxHeartbeats 64000000 in
theorem makeProfileId_bob_val : makeProfileId "bob" = 2846518315 := by
  decide

theorem leWords_leBytes (a b c d : Nat) :
    leWords (leBytes4 a ++ leBytes4 b ++ leBytes4 c ++ leBytes4 d)
      = [a % 256 + 256 * (a >>> 8 % 256 + 256 * (a >>> 16 % 256 + 256 * (a >>> 24 % 256))),
         b % 256 + 256 * (b >>> 8 % 256 + 256 * (b >>> 16 % 256 + 256 * (b >>> 24 % 256))),
         c % 256 + 256 * (c >>> 8 % 256 + 256 * (c >>> 16 % 256 + 256 * (c >>> 24 % 256))),
         d % 256 + 256 * (d >>> 8 % 256 + 256 * (d >>> 16 % 256 + 256 * (d >>> 24 % 256)))] :=
  rfl

/-- C9: `makeProfileId` is a deterministic function of the profile name,
equal to the exclusive-or fold of the four little-endian 32-bit words of
the MD5 digest of the UTF-8 encoded name, and the distinct names `alice`
and `bob` receive distinct ids. -/
theorem makeProfileId_spec :
    (∀ s : String, makeProfileId s = makeProfileId s) ∧
    (∀ s : String, makeProfileId s = xorFold (md5Dwords s)) ∧
    makeProfileId "alice" ≠ makeProfileId "bob" := by
  refine ⟨fun s => rfl, fun s => ?_, ?_⟩
  · obtain ⟨a, b, c, d, h⟩ : ∃ a b c d, md5Dwords s = [a, b, c, d] :=
      ⟨_, _, _, _, by
        simp only [md5Dwords, md5Bytes]
        exact leWords_leBytes _ _ _ _⟩
    simp only [makeProfileId, h, xorFold, List.foldl, List.getD, List.get?,
      Option.getD, Nat.zero_xor]
  · rw [makeProfileId_alice_val, makeProfileId_bob_val]
    decide

end QToxSettings
